import Mathlib

/-! # booze: JSON-RPC dispatcher over a websocket

A shallow embedding of `handler.go`, `response.go` and `payload.go`.

* Byte slices are lists of byte values.
* The package-level error variables of `response.go` are mutable Go variables, and the
  dispatcher stores *pointers* to them in responses, so their current values are part of the
  state (`World.vars`) and a response's `Error` field is a pointer (`ErrPtr`).
* `encoding/json` and `jsonparser` are libraries outside the repository; `json.Unmarshal` and
  `jsonparser.ArrayEach` are parameters of the embedding.
* Goroutines of a batch are run in an arbitrary completion order, given as a list of indices.
* Two ghost logs record which byte slices were passed to `handle` and which payloads were
  passed to a registered handler.
-/

namespace Booze

/-! ## Data model -/

/-- A Go byte slice: each element is a byte value. -/
abbrev Bytes := List Nat

/-- The bytes of an ASCII string. -/
def bytesOf (s : String) : Bytes := s.toList.map Char.toNat

/-- A non-nil Go value stored in an interface: a Go string, or any other value, which is
identified by a description of it. The nil interface is `none : Option Value`. -/
inductive Value where
  | str (s : String)
  | other (repr : String)
  deriving DecidableEq, Repr

/-- The error struct of response.go. -/
structure Error where
  Code : Int
  Data : Option Value
  Message : String
  deriving DecidableEq, Repr

/-- The names of the package-level error variables of response.go. -/
inductive ErrName where
  | ParseError
  | SystemError
  | InternalError
  | InvalidParams
  | TransportError
  | InvalidRequest
  | MethodNotFound
  | ApplicationError
  deriving DecidableEq, Repr

def ParseError : Error := { Code := -32700, Data := none, Message := "parse error" }
def SystemError : Error := { Code := -32400, Data := none, Message := "system error" }
def InternalError : Error := { Code := -32603, Data := none, Message := "internal error" }
def InvalidParams : Error := { Code := -32602, Data := none, Message := "invalid params" }
def TransportError : Error := { Code := -32300, Data := none, Message := "transport error" }
def InvalidRequest : Error := { Code := -32600, Data := none, Message := "invalid request" }
def MethodNotFound : Error := { Code := -32601, Data := none, Message := "method not found" }
def ApplicationError : Error := { Code := -32500, Data := none, Message := "application error" }

/-- The values the error variables are declared with (the `var ( ... )` block of response.go). -/
def declared : ErrName → Error
  | .ParseError => ParseError
  | .SystemError => SystemError
  | .InternalError => InternalError
  | .InvalidParams => InvalidParams
  | .TransportError => TransportError
  | .InvalidRequest => InvalidRequest
  | .MethodNotFound => MethodNotFound
  | .ApplicationError => ApplicationError

/-- A value of type `*Error`: the address of one of the package-level variables
(`&ParseError`), or a pointer to an `Error` object that is not one of them. -/
inductive ErrPtr where
  | var (n : ErrName)
  | obj (e : Error)
  deriving DecidableEq, Repr

/-- The current values of the package-level error variables. -/
abbrev ErrVars := ErrName → Error

/-- The error a pointer points to, in the current state of the variables. -/
def deref (vars : ErrVars) : ErrPtr → Error
  | .var n => vars n
  | .obj e => e

/-- The assignment `p.Data = d` through a pointer `p = &n` to a package-level variable. -/
def setData (vars : ErrVars) (n : ErrName) (d : Option Value) : ErrVars :=
  fun k => if k = n then { vars k with Data := d } else vars k

/-- The request struct of payload.go. -/
structure Payload where
  ID : String
  Method : String
  Params : Bytes
  deriving DecidableEq, Repr

/-- The response struct of response.go; the zero value has every field empty. -/
structure Response where
  ID : String := ""
  Error : Option ErrPtr := none
  Result : Option Value := none
  RPCVersion : String := ""
  deriving DecidableEq, Repr

/-- What a call of a handler does: the pair it returns and the error variables as it leaves
them (a handler may write to them, as `dummyErrorHandler` of handler_test.go does). -/
structure HandlerOut where
  result : Option Value
  err : Option ErrPtr
  vars : ErrVars

/-- A registered handler, `RPCHandlerFunc`; the context argument is not modelled. -/
abbrev RPCHandlerFunc := ErrVars → Payload → HandlerOut

/-- The dispatcher: the `methods` map from method name to handler. -/
structure RPCHandler where
  methods : String → Option RPCHandlerFunc

def NewRPCHandler : RPCHandler := { methods := fun _ => none }

/-- The value `Register` panics with. -/
def HandlerAlreadyExist : String := "handler already exist"

/-- Registration of a handler. The first component is the panic value, if the call panics; the
second is the dispatcher as the call leaves it. -/
def RPCHandler.Register (h : RPCHandler) (methodName : String) (handlerFunc : RPCHandlerFunc) :
    Option String × RPCHandler :=
  match h.methods methodName with
  | some _ => (some HandlerAlreadyExist, h)
  | none =>
    (none, { methods := fun k => if k = methodName then some handlerFunc else h.methods k })

/-! ## The JSON libraries -/

/-- The dynamic type of the error `json.Unmarshal` returns, as far as `handle` tells them
apart. -/
inductive JsonErrKind where
  | UnmarshalTypeError
  | SyntaxError
  | InvalidUnmarshalError
  | other
  deriving DecidableEq, Repr

/-- An error of `json.Unmarshal`: its dynamic type and the text of `err.Error()`. -/
structure JsonError where
  kind : JsonErrKind
  msg : String
  deriving DecidableEq, Repr

/-- The call `json.Unmarshal(data, &payload)` into a fresh payload. -/
abbrev Unmarshal := Bytes → Except JsonError Payload

/-- The call `jsonparser.ArrayEach(message, cb)`: the values the callback is called with, in
order, and the text of the error returned, if any. -/
abbrev ArrayEach := Bytes → List Bytes × Option String

/-! ## The dispatcher -/

/-- The state the dispatcher runs in: the error variables, and two ghost logs: the byte slices
`handle` was called on and the payloads a registered handler was called on, oldest first. -/
structure World where
  vars : ErrVars
  dispatched : List Bytes
  invoked : List Payload

/-- The state at start-up. -/
def World.init : World := { vars := declared, dispatched := [], invoked := [] }

/-- The variable `handle` points the response at for a decode error of the given dynamic type
(the type switch of `handle`). -/
def classify : JsonErrKind → ErrName
  | .UnmarshalTypeError => .InvalidParams
  | .SyntaxError => .ParseError
  | .InvalidUnmarshalError => .ParseError
  | .other => .InternalError

/-- The method `handle` of handler.go. -/
def RPCHandler.handle (h : RPCHandler) (unmarshal : Unmarshal) (w : World) (data : Bytes) :
    Response × World :=
  let w : World := { w with dispatched := w.dispatched ++ [data] }
  let resp : Response := {}
  match unmarshal data with
  | .error err =>
    let n := classify err.kind
    ({ resp with Error := some (.var n) },
     { w with vars := setData w.vars n (some (.str err.msg)) })
  | .ok payload =>
    match h.methods payload.Method with
    | none => ({ resp with ID := payload.ID, Error := some (.var .MethodNotFound) }, w)
    | some rpcHandler =>
      let out := rpcHandler w.vars payload
      let w : World := { w with vars := out.vars, invoked := w.invoked ++ [payload] }
      let resp : Response := { resp with ID := payload.ID }
      match out.err with
      | some handlerError => ({ resp with Error := some handlerError }, w)
      | none => ({ resp with Result := out.result }, w)

/-! ## The read loop of `ServeHTTP` -/

/-- The function `bytes.HasPrefix`. -/
def HasPrefix (s pre : Bytes) : Bool := pre.isPrefixOf s

/-- A value sent on the response channel (`chan interface{}`): a `*Response`, or the slice
`[]*Response` of a batch, whose entries are nil until a goroutine fills them. -/
inductive QueueItem where
  | response (r : Response)
  | responses (rs : List (Option Response))
  deriving DecidableEq, Repr

/-- One goroutine of a batch, `responses[requestNum] = h.handle(ctx, requests[requestNum])`;
there is a goroutine only for `requestNum < len(requests)`. -/
def batchStep (h : RPCHandler) (unmarshal : Unmarshal) (requests : List Bytes)
    (acc : List (Option Response) × World) (requestNum : Nat) : List (Option Response) × World :=
  match requests[requestNum]? with
  | none => acc
  | some data =>
    let out := h.handle unmarshal acc.2 data
    (acc.1.set requestNum (some out.1), out.2)

/-- The goroutine started for a batch: `responses` is allocated with one nil entry per request,
the per-request goroutines run to completion in the order `order`, and `responses` is what is
sent on the channel once the wait group is released. -/
def runBatch (h : RPCHandler) (unmarshal : Unmarshal) (order : List Nat) (w : World)
    (requests : List Bytes) : List (Option Response) × World :=
  order.foldl (batchStep h unmarshal requests) (List.replicate requests.length none, w)

/-- The error variables as they are when the goroutine of request `i` starts, when the
goroutines complete in the order `order`. -/
def worldBefore (h : RPCHandler) (unmarshal : Unmarshal) (requests : List Bytes) :
    List Nat → Nat → World → World
  | [], _, w => w
  | k :: ks, i, w =>
    if k = i then w
    else worldBefore h unmarshal requests ks i
      (batchStep h unmarshal requests (List.replicate requests.length none, w) k).2

/-- The body of the read loop of `ServeHTTP` for one message read from the connection: the
value that ends up on the response channel, and the state afterwards. `order` is the order in
which the goroutines of a batch complete. -/
def onMessage (h : RPCHandler) (unmarshal : Unmarshal) (arrayEach : ArrayEach)
    (order : List Nat) (w : World) (message : Bytes) : QueueItem × World :=
  if HasPrefix message (bytesOf "[") then
    match arrayEach message with
    | (_, some err) =>
      let resp : Response := { Error := some (.var .ParseError) }
      (.response resp, { w with vars := setData w.vars .ParseError (some (.str err)) })
    | (requests, none) =>
      let out := runBatch h unmarshal order w requests
      (.responses out.1, out.2)
  else
    let out := h.handle unmarshal w message
    (.response out.1, out.2)

/-- Whether a value on the response channel is a slice of responses. -/
def QueueItem.isSlice : QueueItem → Bool
  | .response _ => false
  | .responses _ => true

/-- The batch test as the specification words it: the first byte after trimming leading
whitespace (space, tab, line feed, carriage return) is an opening bracket. -/
def specIsBatch (message : Bytes) : Bool :=
  (message.dropWhile fun b => b = 32 || b = 9 || b = 10 || b = 13).head? = some 91

/-! ## The write loop, `writeResponses` -/

/-- A message written to the connection: a ping, a close message, or the JSON encoding of a
value (`none` is the nil interface). -/
inductive Frame where
  | ping
  | close
  | json (v : Option QueueItem)
  deriving DecidableEq, Repr

/-- The response channel: the buffered values, oldest first, and whether it is closed. -/
structure Chan where
  buf : List QueueItem
  closed : Bool

/-- The connection, as the write loop sees it: the messages written, oldest first, the number
of writes attempted and the number of write deadlines set. -/
structure Conn where
  wire : List Frame
  writes : Nat
  deadlines : Nat

/-- The state of the write loop; `recvs` counts the receive operations on the channel. -/
structure WState where
  ch : Chan
  conn : Conn
  recvs : Nat

/-- How an iteration of the `for` loop of `writeResponses` ends: it goes round again, the
function returns, or it waits on an empty open channel. -/
inductive LoopCtl where
  | next
  | exit
  | blocked
  deriving DecidableEq, Repr

/-- A write to the connection; `fails k` says that the write attempted after `k` earlier ones
returns an error. The first component is `true` when the write returned an error. -/
def Conn.Write (fails : Nat → Bool) (c : Conn) (f : Frame) : Bool × Conn :=
  if fails c.writes then (true, { c with writes := c.writes + 1 })
  else (false, { c with wire := c.wire ++ [f], writes := c.writes + 1 })

def Conn.SetWriteDeadline (c : Conn) : Conn := { c with deadlines := c.deadlines + 1 }

/-- What producers send on the channel while the consumer is not looking. -/
def Chan.arrive (ch : Chan) (items : List QueueItem) : Chan := { ch with buf := ch.buf ++ items }

/-- The receive `v, ok := <-ch`: `none` when it has to wait. -/
def Chan.recv (ch : Chan) : Option (Option QueueItem × Bool × Chan) :=
  match ch.buf with
  | v :: rest => some (some v, true, { ch with buf := rest })
  | [] => if ch.closed then some (none, false, ch) else none

/-- The inner loop `for i := 0; i < n; i++ { WriteJSON(<-responses) }` with `todo = n - i`
iterations to go. `arrivals j` are the values producers send between the consumer's channel
operations `j - 1` and `j` of this wake-up (operation 0 reads the length). -/
def drain (fails : Nat → Bool) (arrivals : Nat → List QueueItem) :
    (todo i : Nat) → WState → LoopCtl × WState
  | 0, _, st => (.next, st)
  | todo + 1, i, st =>
    match (st.ch.arrive (arrivals (i + 1))).recv with
    | none => (.blocked, st)
    | some (v, _, ch) =>
      let out := st.conn.Write fails (.json v)
      let st : WState := { ch := ch, conn := out.2, recvs := st.recvs + 1 }
      if out.1 then (.exit, st) else drain fails arrivals todo (i + 1) st

/-- The branch `case response, ok := <-responses` of the `select` of `writeResponses`. -/
def onQueue (fails : Nat → Bool) (arrivals : Nat → List QueueItem) (st : WState) :
    LoopCtl × WState :=
  match st.ch.recv with
  | none => (.blocked, st)
  | some (response, ok, ch) =>
    let conn := st.conn.SetWriteDeadline
    if !ok then
      (.exit, { ch := ch, conn := (conn.Write fails .close).2, recvs := st.recvs + 1 })
    else
      let out := conn.Write fails (.json response)
      if out.1 then (.exit, { ch := ch, conn := out.2, recvs := st.recvs + 1 })
      else
        let ch := ch.arrive (arrivals 0)
        let n := ch.buf.length
        drain fails arrivals n 0 { ch := ch, conn := out.2, recvs := st.recvs + 1 }

/-- The branch `case <-ticker.C` of the `select` of `writeResponses`. -/
def onTick (fails : Nat → Bool) (st : WState) : LoopCtl × WState :=
  let out := st.conn.SetWriteDeadline.Write fails .ping
  (if out.1 then .exit else .next, { st with conn := out.2 })

/-- The error variables still carry the codes and messages they are declared with. -/
def CodesIntact (vars : ErrVars) : Prop :=
  ∀ n, (vars n).Code = (declared n).Code ∧ (vars n).Message = (declared n).Message

/-- A handler that writes to no `Code` or `Message` of an error variable. -/
def KeepsCodes (f : RPCHandlerFunc) : Prop :=
  ∀ vars p, CodesIntact vars → CodesIntact (f vars p).vars

/-- A handler whose returned pair does not depend on the values of the error variables. -/
def ReturnsAlike (f : RPCHandlerFunc) : Prop :=
  ∀ vars vars' p, (f vars p).result = (f vars' p).result ∧ (f vars p).err = (f vars' p).err

/-! ## The fixtures of handler_test.go -/

/-- The handler `dummySuccessHandler`: it returns a map and no error. -/
def dummySuccessHandler : RPCHandlerFunc :=
  fun vars _ =>
    { result := some (.other "map[string]string: message=success"), err := none, vars := vars }

/-- The handler `dummyErrorHandler`: it stores "data" in the variable `InvalidRequest` and
returns the address of that variable. -/
def dummyErrorHandler : RPCHandlerFunc :=
  fun vars _ =>
    { result := none, err := some (.var .InvalidRequest),
      vars := setData vars .InvalidRequest (some (.str "data")) }

/-- A handler that returns `nil, nil`. -/
def nilHandler : RPCHandlerFunc :=
  fun vars _ => { result := none, err := none, vars := vars }

/-- The dispatcher `TestRPCHandler` builds. -/
def testHandler : RPCHandler :=
  ((NewRPCHandler.Register "test_ok" dummySuccessHandler).2.Register
    "test_error" dummyErrorHandler).2

def reqTestOk : Bytes := bytesOf "\x7b\"method\": \"test_ok\"\x7d"
def reqTestError : Bytes := bytesOf "\x7b\"method\": \"test_error\"\x7d"
def reqUnknown : Bytes := bytesOf "\x7b\"method\": \"unknown_method\"\x7d"
def reqOk1 : Bytes := bytesOf "\x7b\"method\": \"test_ok\", \"id\": \"1\"\x7d"
def reqOk2 : Bytes := bytesOf "\x7b\"method\": \"test_ok\", \"id\": \"2\"\x7d"
def reqOk3 : Bytes := bytesOf "\x7b\"method\": \"test_ok\", \"id\": \"3\"\x7d"
def reqErr2 : Bytes := bytesOf "\x7b\"method\": \"test_error\", \"id\": \"2\"\x7d"
def reqBadJson : Bytes := bytesOf "\x7basd"
def reqBadAttr : Bytes := bytesOf "\x7b\"method\": 12331212\x7d"
def sep : Bytes := bytesOf ", "

/-- The input of the test case `valid multiple requests`. -/
def batchOk : Bytes := bytesOf "[" ++ reqOk1 ++ sep ++ reqOk2 ++ sep ++ reqOk3 ++ bytesOf "]"

/-- The input of the test case `valid multiple requests with err response`. -/
def batchErr : Bytes := bytesOf "[" ++ reqOk1 ++ sep ++ reqErr2 ++ sep ++ reqOk3 ++ bytesOf "]"

/-- The input of the test case `invalid array json`: the closing bracket is missing. -/
def batchOpen : Bytes := bytesOf "[" ++ reqOk1 ++ sep ++ reqOk2

/-- The input of `valid multiple requests` after one space. -/
def spacedBatch : Bytes := bytesOf " " ++ batchOk

/-- The decoder's error on `reqBadJson`, from the test case `invalid json`. -/
def errBadJson : JsonError :=
  { kind := .SyntaxError,
    msg := "invalid character \x27a\x27 looking for beginning of object key string" }

/-- The decoder's error on `reqBadAttr`, from the test case `invalid json attrs`. -/
def errBadAttr : JsonError :=
  { kind := .UnmarshalTypeError,
    msg := "json: cannot unmarshal number into Go struct field Payload.method of type string" }

/-- The splitter's error on `batchOpen`, from the test case `invalid array json`. -/
def msgOpenArray : String := "Value is array, but can\x27t find closing \x27]\x27 symbol"

/-- What `json.Unmarshal(data, &payload)` returns on the requests of handler_test.go, as the
expected outputs of the test cases record it, and on an array after a space; an input outside
this table is reported as an error of no particular type. -/
def testUnmarshal : Unmarshal := fun data =>
  if data = reqTestOk then .ok { ID := "", Method := "test_ok", Params := [] }
  else if data = reqTestError then .ok { ID := "", Method := "test_error", Params := [] }
  else if data = reqUnknown then .ok { ID := "", Method := "unknown_method", Params := [] }
  else if data = reqOk1 then .ok { ID := "1", Method := "test_ok", Params := [] }
  else if data = reqOk2 then .ok { ID := "2", Method := "test_ok", Params := [] }
  else if data = reqOk3 then .ok { ID := "3", Method := "test_ok", Params := [] }
  else if data = reqErr2 then .ok { ID := "2", Method := "test_error", Params := [] }
  else if data = reqBadJson then .error errBadJson
  else if data = reqBadAttr then .error errBadAttr
  else if data = spacedBatch then
    .error { kind := .UnmarshalTypeError,
             msg := "json: cannot unmarshal array into Go value of type booze.Payload" }
  else .error { kind := .other, msg := "input outside the table" }

/-- What `jsonparser.ArrayEach` does on the batches of handler_test.go; on the array without
its closing bracket the callback sees both elements before the error is returned. An input
outside this table is reported as an error. -/
def testArrayEach : ArrayEach := fun message =>
  if message = batchOk then ([reqOk1, reqOk2, reqOk3], none)
  else if message = batchErr then ([reqOk1, reqErr2, reqOk3], none)
  else if message = batchOpen then
    ([reqOk1, reqOk2], some msgOpenArray)
  else ([], some "input outside the table")

/-! ## Lemmas on `handle` -/

theorem setData_code (vars : ErrVars) (n k : ErrName) (d : Option Value) :
    (setData vars n d k).Code = (vars k).Code ∧ (setData vars n d k).Message = (vars k).Message := by
  unfold setData
  by_cases hk : k = n <;> simp [hk]

theorem setData_same (vars : ErrVars) (n : ErrName) (d : Option Value) :
    setData vars n d n = { vars n with Data := d } := by
  simp [setData]

theorem setData_other (vars : ErrVars) (n k : ErrName) (d : Option Value) (hk : k ≠ n) :
    setData vars n d k = vars k := by
  simp [setData, hk]

theorem codesIntact_declared : CodesIntact declared := fun _ => ⟨rfl, rfl⟩

theorem codesIntact_setData (vars : ErrVars) (n : ErrName) (d : Option Value)
    (hv : CodesIntact vars) : CodesIntact (setData vars n d) := by
  intro k
  obtain ⟨h1, h2⟩ := setData_code vars n k d
  exact ⟨h1.trans (hv k).1, h2.trans (hv k).2⟩

theorem handle_error (h : RPCHandler) (unmarshal : Unmarshal) (w : World) (data : Bytes)
    (err : JsonError) (hdec : unmarshal data = .error err) :
    h.handle unmarshal w data =
      ({ Error := some (.var (classify err.kind)) },
       { vars := setData w.vars (classify err.kind) (some (.str err.msg)),
         dispatched := w.dispatched ++ [data], invoked := w.invoked }) := by
  simp [RPCHandler.handle, hdec]

theorem handle_unknown (h : RPCHandler) (unmarshal : Unmarshal) (w : World) (data : Bytes)
    (payload : Payload) (hdec : unmarshal data = .ok payload)
    (hreg : h.methods payload.Method = none) :
    h.handle unmarshal w data =
      ({ ID := payload.ID, Error := some (.var .MethodNotFound) },
       { w with dispatched := w.dispatched ++ [data] }) := by
  simp [RPCHandler.handle, hdec, hreg]

theorem handle_registered (h : RPCHandler) (unmarshal : Unmarshal) (w : World) (data : Bytes)
    (payload : Payload) (f : RPCHandlerFunc) (hdec : unmarshal data = .ok payload)
    (hreg : h.methods payload.Method = some f) :
    h.handle unmarshal w data =
      ((match (f w.vars payload).err with
        | some handlerError => { ID := payload.ID, Error := some handlerError }
        | none => { ID := payload.ID, Result := (f w.vars payload).result }),
       { vars := (f w.vars payload).vars, dispatched := w.dispatched ++ [data],
         invoked := w.invoked ++ [payload] }) := by
  simp only [RPCHandler.handle, hdec, hreg]
  cases (f w.vars payload).err <;> rfl

/-- Every call of `handle` is logged once. -/
theorem handle_dispatched (h : RPCHandler) (unmarshal : Unmarshal) (w : World) (data : Bytes) :
    (h.handle unmarshal w data).2.dispatched = w.dispatched ++ [data] := by
  cases hdec : unmarshal data with
  | error err => rw [handle_error h unmarshal w data err hdec]
  | ok payload =>
    cases hreg : h.methods payload.Method with
    | none => rw [handle_unknown h unmarshal w data payload hdec hreg]
    | some f => rw [handle_registered h unmarshal w data payload f hdec hreg]

/-- The codes and messages of the error variables survive a call of `handle`, when the
registered handlers leave them alone. -/
theorem handle_codesIntact (h : RPCHandler) (unmarshal : Unmarshal) (w : World) (data : Bytes)
    (hh : ∀ name f, h.methods name = some f → KeepsCodes f) (hv : CodesIntact w.vars) :
    CodesIntact (h.handle unmarshal w data).2.vars := by
  cases hdec : unmarshal data with
  | error err =>
    rw [handle_error h unmarshal w data err hdec]
    exact codesIntact_setData _ _ _ hv
  | ok payload =>
    cases hreg : h.methods payload.Method with
    | none =>
      rw [handle_unknown h unmarshal w data payload hdec hreg]
      exact hv
    | some f =>
      rw [handle_registered h unmarshal w data payload f hdec hreg]
      exact hh _ f hreg w.vars payload hv

/-- The variable `MethodNotFound` survives a call of `handle`, when the registered handlers
leave it alone: `handle` itself never writes to it. -/
theorem handle_keeps_MethodNotFound (h : RPCHandler) (unmarshal : Unmarshal) (w : World)
    (data : Bytes)
    (hh : ∀ name f vars p, h.methods name = some f →
      (f vars p).vars .MethodNotFound = vars .MethodNotFound) :
    (h.handle unmarshal w data).2.vars .MethodNotFound = w.vars .MethodNotFound := by
  cases hdec : unmarshal data with
  | error err =>
    rw [handle_error h unmarshal w data err hdec]
    apply setData_other
    cases err.kind <;> simp [classify]
  | ok payload =>
    cases hreg : h.methods payload.Method with
    | none => rw [handle_unknown h unmarshal w data payload hdec hreg]
    | some f =>
      rw [handle_registered h unmarshal w data payload f hdec hreg]
      exact hh _ f w.vars payload hreg

/-! ## Single requests -/

/-- C1, as stated, fails: with a registered handler that returns `nil, nil`, the request
`{"method": "test_ok"}` decodes, its method is registered, and the response `handle` returns
has neither a result nor an error. -/
theorem C1_counterexample :
    testUnmarshal reqTestOk = .ok { ID := "", Method := "test_ok", Params := [] } ∧
    ((NewRPCHandler.Register "test_ok" nilHandler).2.methods "test_ok").isSome = true ∧
    (((NewRPCHandler.Register "test_ok" nilHandler).2.handle
        testUnmarshal World.init reqTestOk).1.Result = none ∧
     ((NewRPCHandler.Register "test_ok" nilHandler).2.handle
        testUnmarshal World.init reqTestOk).1.Error = none) :=
  ⟨rfl, rfl, rfl, rfl⟩

/-- C1, amended: for a request that decodes and whose method is registered, the response of
`handle` carries the request's id and never both a result and an error; it carries the
handler's error alone when that error is non-nil (whatever result comes with it), the handler's
result alone when the error is nil, and so exactly one of the two is set if and only if the
handler returns a non-nil error or a non-nil result. -/
theorem C1_registered_response (h : RPCHandler) (unmarshal : Unmarshal) (w : World)
    (data : Bytes) (payload : Payload) (f : RPCHandlerFunc)
    (hdec : unmarshal data = .ok payload) (hreg : h.methods payload.Method = some f) :
    (h.handle unmarshal w data).1.ID = payload.ID ∧
    ¬ ((h.handle unmarshal w data).1.Result.isSome = true ∧
       (h.handle unmarshal w data).1.Error.isSome = true) ∧
    (∀ e, (f w.vars payload).err = some e →
      (h.handle unmarshal w data).1.Error = some e ∧
      (h.handle unmarshal w data).1.Result = none) ∧
    ((f w.vars payload).err = none →
      (h.handle unmarshal w data).1.Error = none ∧
      (h.handle unmarshal w data).1.Result = (f w.vars payload).result) ∧
    (((h.handle unmarshal w data).1.Result.isSome ≠ (h.handle unmarshal w data).1.Error.isSome) ↔
      ((f w.vars payload).err.isSome = true ∨ (f w.vars payload).result.isSome = true)) := by
  rw [handle_registered h unmarshal w data payload f hdec hreg]
  cases herr : (f w.vars payload).err with
  | some e => simp
  | none =>
    cases hres : (f w.vars payload).result <;> simp

/-- C1, amended, on the first two test cases of handler_test.go. -/
theorem C1_registered_response_witness :
    ((testHandler.handle testUnmarshal World.init reqTestOk).1.ID = "" ∧
     (testHandler.handle testUnmarshal World.init reqTestOk).1.Result.isSome ≠
       (testHandler.handle testUnmarshal World.init reqTestOk).1.Error.isSome) ∧
    (testHandler.handle testUnmarshal World.init reqTestError).1.Error =
      some (.var .InvalidRequest) := by
  have h1 := C1_registered_response testHandler testUnmarshal World.init reqTestOk
    { ID := "", Method := "test_ok", Params := [] } dummySuccessHandler rfl rfl
  have h2 := C1_registered_response testHandler testUnmarshal World.init reqTestError
    { ID := "", Method := "test_error", Params := [] } dummyErrorHandler rfl rfl
  exact ⟨⟨h1.1, h1.2.2.2.2.2 (Or.inr rfl)⟩, (h2.2.2.1 _ rfl).1⟩

/-- C3: when decoding the request fails, `handle` returns without calling a handler; the
response has an empty id, no result, and its error is the variable chosen by the dynamic type
of the failure: `InvalidParams` (-32602) for a type mismatch, `ParseError` (-32700) for a syntax
error (and for an invalid unmarshal target, which `json.Unmarshal` reports only for a nil or
non-pointer target), `InternalError` (-32603) for any other failure; the data of that error is
the text of the decoder's error. -/
theorem C3_decode_failure (h : RPCHandler) (unmarshal : Unmarshal) (w : World) (data : Bytes)
    (err : JsonError) (hdec : unmarshal data = .error err) (hv : CodesIntact w.vars) :
    (h.handle unmarshal w data).1.ID = "" ∧
    (h.handle unmarshal w data).1.Result = none ∧
    (h.handle unmarshal w data).2.invoked = w.invoked ∧
    (∃ p, (h.handle unmarshal w data).1.Error = some p ∧
      (deref (h.handle unmarshal w data).2.vars p).Data = some (.str err.msg) ∧
      (err.kind = .UnmarshalTypeError →
        p = .var .InvalidParams ∧
        deref (h.handle unmarshal w data).2.vars p =
          { Code := -32602, Data := some (.str err.msg), Message := "invalid params" }) ∧
      (err.kind = .SyntaxError ∨ err.kind = .InvalidUnmarshalError →
        p = .var .ParseError ∧
        deref (h.handle unmarshal w data).2.vars p =
          { Code := -32700, Data := some (.str err.msg), Message := "parse error" }) ∧
      (err.kind = .other →
        p = .var .InternalError ∧
        deref (h.handle unmarshal w data).2.vars p =
          { Code := -32603, Data := some (.str err.msg), Message := "internal error" })) := by
  rw [handle_error h unmarshal w data err hdec]
  refine ⟨rfl, rfl, rfl, .var (classify err.kind), rfl, ?_, ?_, ?_, ?_⟩
  · simp [deref, setData_same]
  · intro hk
    have hc := hv .InvalidParams
    simp only [hk, classify, deref, setData_same, true_and]
    rw [hc.1, hc.2]; rfl
  · intro hk
    have hc := hv .ParseError
    have hcl : classify err.kind = .ParseError := by
      rcases hk with hk | hk <;> simp [hk, classify]
    simp only [hcl, deref, setData_same, true_and]
    rw [hc.1, hc.2]; rfl
  · intro hk
    have hc := hv .InternalError
    simp only [hk, classify, deref, setData_same, true_and]
    rw [hc.1, hc.2]; rfl

/-- C3 on the test cases `invalid json` of handler_test.go. -/
theorem C3_decode_failure_witness :
    (testHandler.handle testUnmarshal World.init reqBadJson).1.ID = "" ∧
    (testHandler.handle testUnmarshal World.init reqBadJson).1.Error = some (.var .ParseError) ∧
    (testHandler.handle testUnmarshal World.init reqBadJson).2.invoked = [] := by
  have h := C3_decode_failure testHandler testUnmarshal World.init reqBadJson errBadJson
    rfl codesIntact_declared
  obtain ⟨h1, _, h3, p, hp, _, _, hsyn, _⟩ := h
  exact ⟨h1, by rw [hp, (hsyn (Or.inl rfl)).1], h3⟩

/-- C4: for a request that decodes and whose method is not registered, `handle` calls no
handler and returns a response with the request's id, no result, and the error `MethodNotFound`
(-32601, "method not found") without data; it writes to no error variable. -/
theorem C4_method_not_found (h : RPCHandler) (unmarshal : Unmarshal) (w : World) (data : Bytes)
    (payload : Payload) (hdec : unmarshal data = .ok payload)
    (hreg : h.methods payload.Method = none)
    (hv : w.vars .MethodNotFound = MethodNotFound) :
    (h.handle unmarshal w data).1.ID = payload.ID ∧
    (h.handle unmarshal w data).1.Result = none ∧
    (h.handle unmarshal w data).1.Error = some (.var .MethodNotFound) ∧
    deref (h.handle unmarshal w data).2.vars (.var .MethodNotFound) =
      { Code := -32601, Data := none, Message := "method not found" } ∧
    (h.handle unmarshal w data).2.invoked = w.invoked ∧
    (h.handle unmarshal w data).2.vars = w.vars := by
  rw [handle_unknown h unmarshal w data payload hdec hreg]
  exact ⟨rfl, rfl, rfl, hv, rfl, rfl⟩

/-- C4 on the test case `call unknown method` of handler_test.go. -/
theorem C4_method_not_found_witness :
    (testHandler.handle testUnmarshal World.init reqUnknown).1 =
      { ID := "", Error := some (.var .MethodNotFound) } ∧
    (testHandler.handle testUnmarshal World.init reqUnknown).2.invoked = [] := by
  have h := C4_method_not_found testHandler testUnmarshal World.init reqUnknown
    { ID := "", Method := "unknown_method", Params := [] } rfl rfl rfl
  exact ⟨by decide, h.2.2.2.2.1⟩

/-- C6: whatever the registry, the decoder, the handlers and the input, the response `handle`
returns never has both a result and an error. -/
theorem C6_never_both (h : RPCHandler) (unmarshal : Unmarshal) (w : World) (data : Bytes) :
    ¬ ((h.handle unmarshal w data).1.Result.isSome = true ∧
       (h.handle unmarshal w data).1.Error.isSome = true) := by
  cases hdec : unmarshal data with
  | error err => rw [handle_error h unmarshal w data err hdec]; simp
  | ok payload =>
    cases hreg : h.methods payload.Method with
    | none => rw [handle_unknown h unmarshal w data payload hdec hreg]; simp
    | some f =>
      rw [handle_registered h unmarshal w data payload f hdec hreg]
      cases (f w.vars payload).err <;> simp

/-! ## Registration -/

/-- C9: `Register` on a name that is already bound panics with `HandlerAlreadyExist` and leaves
the dispatcher as it was, the earlier handler still bound; on a fresh name it returns normally,
the name then resolves to the given handler, and every other name resolves as before. -/
theorem C9_register (h : RPCHandler) (methodName : String) (handlerFunc : RPCHandlerFunc) :
    (∀ g, h.methods methodName = some g →
      (h.Register methodName handlerFunc).1 = some HandlerAlreadyExist ∧
      (h.Register methodName handlerFunc).2 = h ∧
      (h.Register methodName handlerFunc).2.methods methodName = some g) ∧
    (h.methods methodName = none →
      (h.Register methodName handlerFunc).1 = none ∧
      (h.Register methodName handlerFunc).2.methods methodName = some handlerFunc ∧
      ∀ k, k ≠ methodName → (h.Register methodName handlerFunc).2.methods k = h.methods k) := by
  constructor
  · intro g hg
    simp [RPCHandler.Register, hg]
  · intro hn
    simp only [RPCHandler.Register, hn]
    refine ⟨trivial, by simp, ?_⟩
    intro k hk
    simp [hk]

/-! ## Batches -/

theorem hasPrefix_bracket (message : Bytes) :
    HasPrefix message (bytesOf "[") = true ↔ message.head? = some 91 := by
  have hb : bytesOf "[" = [91] := rfl
  rw [HasPrefix, hb]
  cases message with
  | nil => simp [List.isPrefixOf]
  | cons b rest =>
    simp only [List.isPrefixOf, List.head?_cons, Bool.and_true, beq_iff_eq, Option.some.injEq]
    exact eq_comm

theorem batchStep_length (h : RPCHandler) (unmarshal : Unmarshal) (requests : List Bytes)
    (acc : List (Option Response) × World) (k : Nat) :
    (batchStep h unmarshal requests acc k).1.length = acc.1.length := by
  unfold batchStep
  cases requests[k]? <;> simp

/-- The state a goroutine leaves depends on the state it finds, not on the slice it fills. -/
theorem batchStep_world (h : RPCHandler) (unmarshal : Unmarshal) (requests : List Bytes)
    (acc : List (Option Response) × World) (rs : List (Option Response)) (k : Nat) :
    (batchStep h unmarshal requests acc k).2 =
      (batchStep h unmarshal requests (rs, acc.2) k).2 := by
  unfold batchStep
  cases requests[k]? <;> rfl

/-- Indexed placement: after the goroutines of `order` have run, entry `i` holds the response
of the goroutine of request `i` if that goroutine is among them, and is untouched otherwise. -/
theorem foldl_batchStep_get (h : RPCHandler) (unmarshal : Unmarshal) (requests : List Bytes) :
    ∀ (order : List Nat) (acc : List (Option Response) × World),
      order.Nodup → acc.1.length = requests.length →
      ∀ (i : Nat) (hi : i < requests.length),
        (order.foldl (batchStep h unmarshal requests) acc).1[i]? =
          if i ∈ order then
            some (some (h.handle unmarshal (worldBefore h unmarshal requests order i acc.2)
              (requests.get ⟨i, hi⟩)).1)
          else acc.1[i]? := by
  intro order
  induction order with
  | nil => intro acc _ _ i _; simp
  | cons k ks ih =>
    intro acc hnd hlen i hi
    obtain ⟨hk, hks⟩ := List.nodup_cons.mp hnd
    have hlen2 : (batchStep h unmarshal requests acc k).1.length = requests.length := by
      rw [batchStep_length]; exact hlen
    rw [List.foldl_cons, ih (batchStep h unmarshal requests acc k) hks hlen2 i hi]
    by_cases hik : k = i
    · subst hik
      have hreq : requests[k]? = some (requests.get ⟨k, hi⟩) := by
        simp [List.getElem?_eq_getElem hi]
      have hlt : k < acc.1.length := by omega
      simp [hk, worldBefore, batchStep, hreq, List.getElem?_set_self hlt]
    · have hne : i ≠ k := fun e => hik e.symm
      have hw : (batchStep h unmarshal requests acc k).2 =
          (batchStep h unmarshal requests (List.replicate requests.length none, acc.2) k).2 :=
        batchStep_world h unmarshal requests acc _ k
      by_cases hmem : i ∈ ks
      · simp [hmem, worldBefore, hik, hw]
      · have hold : (batchStep h unmarshal requests acc k).1[i]? = acc.1[i]? := by
          unfold batchStep
          cases requests[k]? with
          | none => rfl
          | some d => simp [List.getElem?_set_ne hik]
        simp [hmem, hne, hold]

theorem runBatch_length (h : RPCHandler) (unmarshal : Unmarshal) (order : List Nat) (w : World)
    (requests : List Bytes) :
    (runBatch h unmarshal order w requests).1.length = requests.length := by
  unfold runBatch
  generalize hacc : (List.replicate requests.length (none : Option Response), w) = acc
  have hlen : acc.1.length = requests.length := by rw [← hacc]; simp
  clear hacc
  induction order generalizing acc with
  | nil => simpa using hlen
  | cons k ks ih =>
    rw [List.foldl_cons]
    exact ih _ (by rw [batchStep_length]; exact hlen)

theorem runBatch_get (h : RPCHandler) (unmarshal : Unmarshal) (order : List Nat) (w : World)
    (requests : List Bytes) (hord : order.Perm (List.range requests.length))
    (i : Nat) (hi : i < requests.length) :
    (runBatch h unmarshal order w requests).1[i]? =
      some (some (h.handle unmarshal (worldBefore h unmarshal requests order i w)
        (requests.get ⟨i, hi⟩)).1) := by
  have hnd : order.Nodup := hord.nodup_iff.mpr (List.nodup_range _)
  have hmem : i ∈ order := hord.mem_iff.mpr (List.mem_range.mpr hi)
  unfold runBatch
  rw [foldl_batchStep_get h unmarshal requests order _ hnd (by simp) i hi]
  simp [hmem]

theorem onMessage_batch (h : RPCHandler) (unmarshal : Unmarshal) (arrayEach : ArrayEach)
    (order : List Nat) (w : World) (message : Bytes) (requests : List Bytes)
    (hpre : HasPrefix message (bytesOf "[") = true) (hsplit : arrayEach message = (requests, none)) :
    onMessage h unmarshal arrayEach order w message =
      (.responses (runBatch h unmarshal order w requests).1,
       (runBatch h unmarshal order w requests).2) := by
  simp [onMessage, hpre, hsplit]

theorem onMessage_split_failure (h : RPCHandler) (unmarshal : Unmarshal) (arrayEach : ArrayEach)
    (order : List Nat) (w : World) (message : Bytes) (seen : List Bytes) (err : String)
    (hpre : HasPrefix message (bytesOf "[") = true)
    (hsplit : arrayEach message = (seen, some err)) :
    onMessage h unmarshal arrayEach order w message =
      (.response { Error := some (.var .ParseError) },
       { w with vars := setData w.vars .ParseError (some (.str err)) }) := by
  simp [onMessage, hpre, hsplit]

theorem onMessage_single (h : RPCHandler) (unmarshal : Unmarshal) (arrayEach : ArrayEach)
    (order : List Nat) (w : World) (message : Bytes)
    (hpre : HasPrefix message (bytesOf "[") = false) :
    onMessage h unmarshal arrayEach order w message =
      (.response (h.handle unmarshal w message).1, (h.handle unmarshal w message).2) := by
  simp [onMessage, hpre]

/-- The response `handle` returns does not depend on the state it runs in, when the pairs the
registered handlers return do not. -/
theorem handle_response_alike (h : RPCHandler) (unmarshal : Unmarshal) (w w' : World)
    (data : Bytes) (hh : ∀ name f, h.methods name = some f → ReturnsAlike f) :
    (h.handle unmarshal w data).1 = (h.handle unmarshal w' data).1 := by
  cases hdec : unmarshal data with
  | error err =>
    rw [handle_error h unmarshal w data err hdec, handle_error h unmarshal w' data err hdec]
  | ok payload =>
    cases hreg : h.methods payload.Method with
    | none =>
      rw [handle_unknown h unmarshal w data payload hdec hreg,
        handle_unknown h unmarshal w' data payload hdec hreg]
    | some f =>
      rw [handle_registered h unmarshal w data payload f hdec hreg,
        handle_registered h unmarshal w' data payload f hdec hreg]
      obtain ⟨h1, h2⟩ := hh _ f hreg w.vars w'.vars payload
      simp only [h1, h2]

/-- C2: for a batch whose array splits into N elements, whatever the order in which the N
goroutines complete, the value sent on the channel is a slice of exactly N responses, and for
every i below N its entry i is the response the call of `handle` on element i returned. When
the pairs the handlers return do not depend on the error variables, the slice is the same for
every completion order: element by element, the response of `handle`. -/
theorem C2_batch_order (h : RPCHandler) (unmarshal : Unmarshal) (arrayEach : ArrayEach)
    (order : List Nat) (w : World) (message : Bytes) (requests : List Bytes)
    (hpre : HasPrefix message (bytesOf "[") = true)
    (hsplit : arrayEach message = (requests, none))
    (hord : order.Perm (List.range requests.length)) :
    ∃ rs, (onMessage h unmarshal arrayEach order w message).1 = .responses rs ∧
      rs.length = requests.length ∧
      (∀ (i : Nat) (hi : i < requests.length),
        rs[i]? = some (some (h.handle unmarshal
          (worldBefore h unmarshal requests order i w) (requests.get ⟨i, hi⟩)).1)) ∧
      ((∀ name f, h.methods name = some f → ReturnsAlike f) →
        rs = requests.map fun data => some (h.handle unmarshal w data).1) := by
  refine ⟨(runBatch h unmarshal order w requests).1, ?_, ?_, ?_, ?_⟩
  · rw [onMessage_batch h unmarshal arrayEach order w message requests hpre hsplit]
  · exact runBatch_length h unmarshal order w requests
  · intro i hi
    exact runBatch_get h unmarshal order w requests hord i hi
  · intro hh
    apply List.ext_getElem?
    intro i
    by_cases hi : i < requests.length
    · rw [runBatch_get h unmarshal order w requests hord i hi]
      simp only [List.getElem?_map, List.getElem?_eq_getElem hi, Option.map_some']
      rw [handle_response_alike h unmarshal _ w _ hh]
      rfl
    · have h1 : (runBatch h unmarshal order w requests).1.length ≤ i := by
        rw [runBatch_length]; omega
      have h2 : (requests.map fun data => some (h.handle unmarshal w data).1).length ≤ i := by
        rw [List.length_map]; omega
      rw [List.getElem?_eq_none h1, List.getElem?_eq_none h2]

/-- C2 on the test case `valid multiple requests with err response`, the goroutines completing
in the order 2, 0, 1. -/
theorem C2_batch_order_witness :
    ∃ rs, (onMessage testHandler testUnmarshal testArrayEach [2, 0, 1] World.init batchErr).1 =
        .responses rs ∧
      rs.length = 3 ∧
      rs[1]? = some (some { ID := "2", Error := some (.var .InvalidRequest) }) := by
  obtain ⟨rs, h1, h2, h3, _⟩ := C2_batch_order testHandler testUnmarshal testArrayEach [2, 0, 1]
    World.init batchErr [reqOk1, reqErr2, reqOk3] rfl rfl (by decide)
  exact ⟨rs, h1, h2, by rw [h3 1 (by decide)]; rfl⟩

/-- C5: for a message that begins with an opening bracket and whose array fails to split, the
value sent on the channel is a single response, not a slice: its id is empty, its result is
absent, its error is `ParseError` (-32700) with the text of the splitter's error as data, and
neither `handle` nor a handler is called on any element. -/
theorem C5_split_failure (h : RPCHandler) (unmarshal : Unmarshal) (arrayEach : ArrayEach)
    (order : List Nat) (w : World) (message : Bytes) (seen : List Bytes) (err : String)
    (hpre : HasPrefix message (bytesOf "[") = true)
    (hsplit : arrayEach message = (seen, some err)) (hv : CodesIntact w.vars) :
    (onMessage h unmarshal arrayEach order w message).1 =
      .response { ID := "", Error := some (.var .ParseError), Result := none } ∧
    (onMessage h unmarshal arrayEach order w message).1.isSlice = false ∧
    deref (onMessage h unmarshal arrayEach order w message).2.vars (.var .ParseError) =
      { Code := -32700, Data := some (.str err), Message := "parse error" } ∧
    (onMessage h unmarshal arrayEach order w message).2.dispatched = w.dispatched ∧
    (onMessage h unmarshal arrayEach order w message).2.invoked = w.invoked := by
  rw [onMessage_split_failure h unmarshal arrayEach order w message seen err hpre hsplit]
  refine ⟨rfl, rfl, ?_, rfl, rfl⟩
  have hc := hv .ParseError
  simp only [deref, setData_same]
  rw [hc.1, hc.2]; rfl

/-- C5 on the test case `invalid array json` of handler_test.go. -/
theorem C5_split_failure_witness :
    (onMessage testHandler testUnmarshal testArrayEach [] World.init batchOpen).1 =
      .response { ID := "", Error := some (.var .ParseError), Result := none } ∧
    (onMessage testHandler testUnmarshal testArrayEach [] World.init batchOpen).2.dispatched =
      [] :=
  have h := C5_split_failure testHandler testUnmarshal testArrayEach [] World.init batchOpen
    [reqOk1, reqOk2] msgOpenArray rfl rfl codesIntact_declared
  ⟨h.1, h.2.2.2.1⟩

/-- C7, as stated, fails: on the input of the test case `invalid json` decoding fails, and the
variable `ParseError`, which has no data before the call of `handle`, has the decoder's message
as data after it. -/
theorem C7_counterexample :
    testUnmarshal reqBadJson = .error errBadJson ∧
    (World.init.vars .ParseError).Data = none ∧
    ((testHandler.handle testUnmarshal World.init reqBadJson).2.vars .ParseError).Data =
      some (.str "invalid character \x27a\x27 looking for beginning of object key string") :=
  ⟨rfl, rfl, rfl⟩

/-- C7, amended: the dispatcher attaches the data in place. After `handle` on a decode failure
the variable chosen for the failure has the decoder's message as data; after the batch branch
on a splitting failure `ParseError` has the splitter's message as data; in both cases the code
and the message of every error variable are as before, and every other variable is unchanged. -/
theorem C7_data_in_place (h : RPCHandler) (unmarshal : Unmarshal) (arrayEach : ArrayEach)
    (order : List Nat) (w : World) :
    (∀ data err, unmarshal data = .error err →
      ((h.handle unmarshal w data).2.vars (classify err.kind)).Data = some (.str err.msg) ∧
      (∀ n, ((h.handle unmarshal w data).2.vars n).Code = (w.vars n).Code ∧
        ((h.handle unmarshal w data).2.vars n).Message = (w.vars n).Message) ∧
      (∀ n, n ≠ classify err.kind → (h.handle unmarshal w data).2.vars n = w.vars n)) ∧
    (∀ message seen err, HasPrefix message (bytesOf "[") = true →
      arrayEach message = (seen, some err) →
      ((onMessage h unmarshal arrayEach order w message).2.vars .ParseError).Data =
        some (.str err) ∧
      (∀ n, ((onMessage h unmarshal arrayEach order w message).2.vars n).Code = (w.vars n).Code ∧
        ((onMessage h unmarshal arrayEach order w message).2.vars n).Message =
          (w.vars n).Message) ∧
      (∀ n, n ≠ .ParseError →
        (onMessage h unmarshal arrayEach order w message).2.vars n = w.vars n)) := by
  constructor
  · intro data err hdec
    rw [handle_error h unmarshal w data err hdec]
    exact ⟨by simp [setData_same], fun n => setData_code _ _ n _,
      fun n hn => setData_other _ _ n _ hn⟩
  · intro message seen err hpre hsplit
    rw [onMessage_split_failure h unmarshal arrayEach order w message seen err hpre hsplit]
    exact ⟨by simp [setData_same], fun n => setData_code _ _ n _,
      fun n hn => setData_other _ _ n _ hn⟩

/-- C7, amended, on the test cases `invalid json attrs` and `invalid array json`. -/
theorem C7_data_in_place_witness :
    ((testHandler.handle testUnmarshal World.init reqBadAttr).2.vars .InvalidParams).Data =
      some (.str errBadAttr.msg) ∧
    (testHandler.handle testUnmarshal World.init reqBadAttr).2.vars .MethodNotFound =
      MethodNotFound ∧
    ((onMessage testHandler testUnmarshal testArrayEach [] World.init batchOpen).2.vars
      .ParseError).Code = -32700 :=
  have h := C7_data_in_place testHandler testUnmarshal testArrayEach [] World.init
  have h1 := h.1 reqBadAttr errBadAttr rfl
  have h2 := h.2 batchOpen [reqOk1, reqOk2] msgOpenArray rfl rfl
  ⟨h1.1, h1.2.2 .MethodNotFound (by decide), (h2.2.1 .ParseError).1⟩

/-- C8, as stated, fails: the test batch of three requests after one space begins with an
opening bracket once leading whitespace is trimmed, and the array after the space splits into
three elements; but the message is passed once to `handle` and the value sent on the channel
is a single response, not a slice. -/
theorem C8_counterexample :
    specIsBatch spacedBatch = true ∧
    spacedBatch = bytesOf " " ++ batchOk ∧
    testArrayEach batchOk = ([reqOk1, reqOk2, reqOk3], none) ∧
    (onMessage testHandler testUnmarshal testArrayEach [0, 1, 2] World.init spacedBatch).1.isSlice
      = false ∧
    (onMessage testHandler testUnmarshal testArrayEach [0, 1, 2] World.init spacedBatch).2.dispatched
      = [spacedBatch] :=
  ⟨rfl, rfl, rfl, rfl, rfl⟩

/-- C8, amended: a message is treated as a batch if and only if its first byte itself is an
opening bracket, nothing being trimmed. A message whose first byte is a bracket and whose array
splits into N elements yields a slice of N responses; every message whose first byte is not a
bracket, one with whitespace before an array included, is passed once to `handle` and yields
that single response. -/
theorem C8_batch_test (h : RPCHandler) (unmarshal : Unmarshal) (arrayEach : ArrayEach)
    (order : List Nat) (w : World) (message : Bytes) :
    (HasPrefix message (bytesOf "[") = true ↔ message.head? = some 91) ∧
    (∀ requests, message.head? = some 91 → arrayEach message = (requests, none) →
      order.Perm (List.range requests.length) →
      ∃ rs, (onMessage h unmarshal arrayEach order w message).1 = .responses rs ∧
        rs.length = requests.length ∧ ∀ r ∈ rs, r ≠ none) ∧
    (message.head? ≠ some 91 →
      (onMessage h unmarshal arrayEach order w message).1 =
        .response (h.handle unmarshal w message).1 ∧
      (onMessage h unmarshal arrayEach order w message).2 = (h.handle unmarshal w message).2 ∧
      (onMessage h unmarshal arrayEach order w message).2.dispatched =
        w.dispatched ++ [message]) := by
  refine ⟨hasPrefix_bracket message, ?_, ?_⟩
  · intro requests hhead hsplit hord
    have hpre := (hasPrefix_bracket message).mpr hhead
    refine ⟨(runBatch h unmarshal order w requests).1, ?_, ?_, ?_⟩
    · rw [onMessage_batch h unmarshal arrayEach order w message requests hpre hsplit]
    · exact runBatch_length h unmarshal order w requests
    · intro r hr
      obtain ⟨i, hi, hget⟩ := List.getElem_of_mem hr
      have hi2 : i < requests.length := by
        rw [runBatch_length] at hi; exact hi
      have hs := runBatch_get h unmarshal order w requests hord i hi2
      rw [List.getElem?_eq_getElem hi, hget] at hs
      intro hnone
      rw [hnone] at hs
      simp at hs
  · intro hhead
    have hpre : HasPrefix message (bytesOf "[") = false := by
      cases hp : HasPrefix message (bytesOf "[") with
      | false => rfl
      | true => exact absurd ((hasPrefix_bracket message).mp hp) hhead
    rw [onMessage_single h unmarshal arrayEach order w message hpre]
    exact ⟨rfl, rfl, handle_dispatched h unmarshal w message⟩

/-- C8, amended, on the test batch and on the same batch after a space. -/
theorem C8_batch_test_witness :
    (∃ rs, (onMessage testHandler testUnmarshal testArrayEach [1, 2, 0] World.init batchOk).1 =
      .responses rs ∧ rs.length = 3) ∧
    (onMessage testHandler testUnmarshal testArrayEach [1, 2, 0] World.init spacedBatch).1 =
      .response (testHandler.handle testUnmarshal World.init spacedBatch).1 := by
  have h1 := (C8_batch_test testHandler testUnmarshal testArrayEach [1, 2, 0] World.init
    batchOk).2.1 [reqOk1, reqOk2, reqOk3] rfl rfl (by decide)
  have h2 := (C8_batch_test testHandler testUnmarshal testArrayEach [1, 2, 0] World.init
    spacedBatch).2.2 (by decide)
  obtain ⟨rs, hrs, hlen, _⟩ := h1
  exact ⟨⟨rs, hrs, hlen⟩, h2.1⟩

/-- A consequence of attaching data in place: in a batch of two requests that both fail to
decode with a syntax error, both responses point at the variable `ParseError`, and the data
that variable ends up with is the message of whichever goroutine completed last. -/
theorem batch_shared_parse_error (h : RPCHandler) (unmarshal : Unmarshal) (w : World)
    (d0 d1 : Bytes) (e0 e1 : JsonError)
    (h0 : unmarshal d0 = .error e0) (h1 : unmarshal d1 = .error e1)
    (k0 : e0.kind = .SyntaxError) (k1 : e1.kind = .SyntaxError) :
    (runBatch h unmarshal [0, 1] w [d0, d1]).1 =
      [some { Error := some (.var .ParseError) }, some { Error := some (.var .ParseError) }] ∧
    (runBatch h unmarshal [1, 0] w [d0, d1]).1 =
      [some { Error := some (.var .ParseError) }, some { Error := some (.var .ParseError) }] ∧
    ((runBatch h unmarshal [0, 1] w [d0, d1]).2.vars .ParseError).Data = some (.str e1.msg) ∧
    ((runBatch h unmarshal [1, 0] w [d0, d1]).2.vars .ParseError).Data = some (.str e0.msg) := by
  simp [runBatch, batchStep, handle_error h unmarshal _ d0 e0 h0,
    handle_error h unmarshal _ d1 e1 h1, k0, k1, classify, setData]

/-! ## The write loop -/

theorem write_ok (fails : Nat → Bool) (c : Conn) (f : Frame) (hok : fails c.writes = false) :
    c.Write fails f = (false, { c with wire := c.wire ++ [f], writes := c.writes + 1 }) := by
  simp [Conn.Write, hok]

/-- The inner loop, run for as many rounds as values are buffered, with no producer sending
and no write failing: it writes the buffered values in order and empties the buffer. -/
theorem drain_quiet (fails : Nat → Bool) (arrivals : Nat → List QueueItem)
    (hquiet : ∀ j, arrivals j = []) :
    ∀ (items : List QueueItem) (i : Nat) (st : WState), st.ch.buf = items →
      (∀ j, st.conn.writes ≤ j → j < st.conn.writes + items.length → fails j = false) →
      drain fails arrivals items.length i st =
        (.next,
         { ch := { buf := [], closed := st.ch.closed },
           conn := { wire := st.conn.wire ++ items.map fun v => Frame.json (some v),
                     writes := st.conn.writes + items.length,
                     deadlines := st.conn.deadlines },
           recvs := st.recvs + items.length }) := by
  intro items
  induction items with
  | nil =>
    intro i st hbuf _
    obtain ⟨⟨buf, closed⟩, conn, recvs⟩ := st
    simp only at hbuf
    subst hbuf
    simp [drain]
  | cons v rest ih =>
    intro i st hbuf hok
    obtain ⟨⟨buf, closed⟩, conn, recvs⟩ := st
    simp only at hbuf
    subst hbuf
    have hw : fails conn.writes = false := hok conn.writes (Nat.le_refl _) (by simp)
    simp only [List.length_cons, drain, Chan.arrive, hquiet, List.append_nil, Chan.recv,
      write_ok fails conn _ hw]
    rw [if_neg (by simp)]
    rw [ih (i + 1) _ rfl]
    · simp [Nat.add_assoc, Nat.add_comm 1]
    · intro j h1 h2
      have h1' : conn.writes + 1 ≤ j := h1
      have h2' : j < conn.writes + 1 + rest.length := h2
      apply hok j
      · show conn.writes ≤ j
        omega
      · show j < conn.writes + (rest.length + 1)
        omega

/-- C10: on a wake-up by a queue item with k further values buffered, when no write fails and
no producer sends meanwhile, one run of the branch writes the first value and then exactly those
k values, in queue order, one message each, and leaves the channel empty; the inner loop does
exactly k further receives, and the loop goes round again. -/
theorem C10_drain_buffered (fails : Nat → Bool) (arrivals : Nat → List QueueItem) (st : WState)
    (first : QueueItem) (rest : List QueueItem)
    (hbuf : st.ch.buf = first :: rest)
    (hok : ∀ j, st.conn.writes ≤ j → j ≤ st.conn.writes + rest.length → fails j = false)
    (hquiet : ∀ j, arrivals j = []) :
    onQueue fails arrivals st =
      (.next,
       { ch := { buf := [], closed := st.ch.closed },
         conn := { wire := st.conn.wire ++ (first :: rest).map fun v => Frame.json (some v),
                   writes := st.conn.writes + 1 + rest.length,
                   deadlines := st.conn.deadlines + 1 },
         recvs := st.recvs + 1 + rest.length }) := by
  obtain ⟨⟨buf, closed⟩, conn, recvs⟩ := st
  simp only at hbuf hok
  subst hbuf
  have hw : fails conn.writes = false := hok conn.writes (Nat.le_refl _) (by omega)
  have hw2 : fails conn.SetWriteDeadline.writes = false := hw
  simp only [onQueue, Chan.recv, Bool.not_true, Bool.false_eq_true, if_false,
    write_ok fails conn.SetWriteDeadline _ hw2, Chan.arrive, hquiet, List.append_nil]
  rw [drain_quiet fails arrivals hquiet rest 0 _ rfl]
  · simp [Conn.SetWriteDeadline]
  · intro j h1 h2
    have h1' : conn.writes + 1 ≤ j := h1
    have h2' : j < conn.writes + 1 + rest.length := h2
    apply hok j <;> omega

/-- C10 on the three responses the last part of `TestRPCHandler` waits for, all buffered when
the write loop wakes up. -/
theorem C10_drain_buffered_witness :
    onQueue (fun _ => false) (fun _ => [])
        { ch := { buf := [.response { Result := some (.other "ok") },
                          .response { Error := some (.var .MethodNotFound) },
                          .response { Error := some (.var .InvalidRequest) }],
                  closed := false },
          conn := { wire := [], writes := 0, deadlines := 0 }, recvs := 0 } =
      (.next,
       { ch := { buf := [], closed := false },
         conn := { wire := [.json (some (.response { Result := some (.other "ok") })),
                            .json (some (.response { Error := some (.var .MethodNotFound) })),
                            .json (some (.response { Error := some (.var .InvalidRequest) }))],
                   writes := 3, deadlines := 1 },
         recvs := 3 }) := by
  rw [C10_drain_buffered (fun _ => false) (fun _ => []) _ _ _ rfl (fun _ _ _ => rfl)
    (fun _ => rfl)]
  rfl

end Booze
